import Mathlib

/-!
Verification of the AIAssistant VS Code extension (HelpingHand1/AIAssistant).

This file gives a shallow embedding, in Lean, of the orchestration and
workspace-mutation pipeline of the extension, translated from the TypeScript
sources:

* `src/utils.ts` (`sanitizeFilePath`, `debounceAsync`),
* `src/api.ts` (`getApiConfig`, `getAiMessage`, `getAiResponse`),
* `src/fileOperations.ts` (`applyResponseChanges`, `deletePath`),
* `src/chat.ts` (`Chat.addToHistory`, module import order),
* `src/generators/index.ts`, `src/generators/apps/todo.ts`,
  `src/generators/games/snake.ts`, `src/generators/games/ticTacToe.ts`,
  `src/generators/generalgenerator.ts`.

JavaScript effects (filesystem, editor, webview panel, global state, HTTP)
are modelled by explicit environments and event traces; code that can throw
is modelled with `Except`, and a `try`/`catch` becomes a total handler on the
`Except` value.  JavaScript truthiness of optional strings (`undefined` and
`""` are falsy) is modelled by `jsTruthy`.
-/

namespace AIAssistant

/-- JavaScript truthiness for an optional string: `undefined` (here `none`)
and the empty string are falsy; every other string is truthy. -/
def jsTruthy : Option String → Bool
  | none => false
  | some s => !(s == "")

/-- Characters accepted by the character class of `sanitizeFilePath`
(src/utils.ts): ASCII letters, digits, underscore, dot, slash and dash. -/
def allowedChar (c : Char) : Bool :=
  c.isAlpha || c.isDigit || c == '_' || c == '.' || c == '/' || c == '-'

/-- One step of the first regex replace in `sanitizeFilePath`: a character
outside the allowed class is replaced by an underscore. -/
def sanitizeChar (c : Char) : Char :=
  if allowedChar c then c else '_'

/-- The second regex replace in `sanitizeFilePath`: every maximal run of
slashes is collapsed to a single slash.  Formulated as: drop a slash that is
directly followed by another slash. -/
def collapseSlashes : List Char → List Char
  | [] => []
  | [c] => [c]
  | c1 :: c2 :: rest =>
    if c1 == '/' && c2 == '/' then collapseSlashes (c2 :: rest)
    else c1 :: collapseSlashes (c2 :: rest)

/-- `sanitizeFilePath` from src/utils.ts: replace every character outside
the allowed class by an underscore, then collapse repeated slashes. -/
def sanitizeFilePath (filePath : String) : String :=
  String.mk (collapseSlashes (filePath.data.map sanitizeChar))

/-- Split a character list at every occurrence of a separator character. -/
def splitOnChar (sep : Char) (cur : List Char) : List Char → List (List Char)
  | [] => [cur.reverse]
  | c :: rest =>
    if c == sep then cur.reverse :: splitOnChar sep [] rest
    else splitOnChar sep (c :: cur) rest

/-- Split a character list into path segments at slashes. -/
def splitSlash (cur : List Char) (cs : List Char) : List (List Char) :=
  splitOnChar '/' cur cs

/-- Resolve `.`/`..`/empty segments of a path the way Node's
`path.normalize` does, accumulator-style.  `isAbs` tells whether the whole
path is absolute (then `..` at the root is dropped, otherwise kept). -/
def resolveSegs (isAbs : Bool) :
    List (List Char) → List (List Char) → List (List Char)
  | acc, [] => acc.reverse
  | acc, seg :: rest =>
    if seg == [] || seg == ['.'] then resolveSegs isAbs acc rest
    else if seg == ['.', '.'] then
      match acc with
      | [] => resolveSegs isAbs (if isAbs then [] else [seg]) rest
      | prev :: acctl =>
        if prev == ['.', '.'] then resolveSegs isAbs (seg :: prev :: acctl) rest
        else resolveSegs isAbs acctl rest
    else resolveSegs isAbs (seg :: acc) rest

/-- Re-join path segments with slashes. -/
def joinSegs : List (List Char) → List Char
  | [] => []
  | [seg] => seg
  | seg :: rest => seg ++ '/' :: joinSegs rest

/-- Node `path.normalize` on POSIX paths (sufficient fidelity for the paths
the pipeline produces): split on slashes, resolve `.`/`..`, re-join. -/
def normalizePath (s : String) : String :=
  let cs := s.data
  let isAbs : Bool := match cs with
    | '/' :: _ => true
    | _ => false
  let body := joinSegs (resolveSegs isAbs [] (splitSlash [] cs))
  if isAbs then String.mk ('/' :: body)
  else if body == [] then (".") else String.mk body

/-- Node `path.join(a, b)` for a non-empty `a`: concatenate with a slash and
normalize.  Used by `applyResponseChanges` to join an action path to the
workspace root. -/
def pathJoin (a b : String) : String :=
  normalizePath (String.mk (a.data ++ '/' :: b.data))

/-- A resolved path lies inside a root directory if it is the root itself or
a descendant of it. -/
def insideRoot (root p : String) : Bool :=
  p == root || (root.data ++ ['/']).isPrefixOf p.data

/-! ### Generator registry (src/generators) -/

/-- JavaScript `String.prototype.toLowerCase` on the ASCII inputs used by the
generators' detection code. -/
def toLowerStr (s : String) : String :=
  String.mk (s.data.map Char.toLower)

/-- Substring containment on character lists. -/
def listInfix (needle : List Char) : List Char → Bool
  | [] => needle.isPrefixOf ([] : List Char)
  | c :: rest => needle.isPrefixOf (c :: rest) || listInfix needle rest

/-- JavaScript `hay.includes(needle)`: substring containment. -/
def jsIncludes (hay needle : String) : Bool :=
  listInfix needle.data hay.data

/-- The suffix of `hay` after the first occurrence of `needle`, if `needle`
occurs in `hay` at all. -/
def dropThrough (needle : List Char) : List Char → Option (List Char)
  | [] => if needle.isPrefixOf ([] : List Char) then some [] else none
  | c :: rest =>
    if needle.isPrefixOf (c :: rest) then some ((c :: rest).drop needle.length)
    else dropThrough needle rest

/-- Ordered-substring test: `a` occurs, and `b` occurs after it (the shape of
the regexes of the form `a.*b` used by the pattern-based generators). -/
def seqMatch2 (l a b : String) : Bool :=
  match dropThrough a.data l.data with
  | none => false
  | some rest => listInfix b.data rest

/-- A registered response generator, as the detect-based registry of
src/generators/index.ts sees it.  `detect` is `none` for generator objects
that define a `patterns` field instead of a `detect` method
(src/generators/games/snake.ts and ticTacToe.ts): reading `detect` off such
an object yields `undefined` in JavaScript. -/
structure Generator where
  name : String
  detect : Option (String → Bool)

/-- `detect` of the todo generator (src/generators/apps/todo.ts): keyword
and action-keyword matching over the lower-cased input. -/
def todoDetect (input : String) : Bool :=
  let keywords := [("todo app"), ("todo list"), ("task app"), ("task list"),
                   ("todo application")]
  let actions := [("create"), ("make"), ("build"), ("generate"), ("develop")]
  let l := toLowerStr input
  let directMatch := keywords.any (fun k => jsIncludes l k)
  let actionMatch := actions.any (fun a => keywords.any (fun k =>
    jsIncludes l (a ++ (" ") ++ k) || jsIncludes l (a ++ (" a ") ++ k)))
  directMatch || actionMatch

/-- The patterns of the snake generator (src/generators/games/snake.ts),
read as a detect function the way the pattern-based registry revision tests
them: a case-insensitive substring for the literal pattern, and
ordered-substring tests for the patterns of the form `create.*snake`. -/
def snakePatternsDetect (input : String) : Bool :=
  let l := toLowerStr input
  jsIncludes l ("snake game") || seqMatch2 l ("create") ("snake") ||
    seqMatch2 l ("make") ("snake")

/-- The patterns of the tic-tac-toe generator
(src/generators/games/ticTacToe.ts), read as a detect function.  The
optional separator class of the literal pattern is approximated by the
separators that occur in practice (nothing, space, dash, tab). -/
def ticTacToePatternsDetect (input : String) : Bool :=
  let l := toLowerStr input
  let seps := [(""), (" "), ("-"), ("\t")]
  (seps.any (fun s1 => seps.any (fun s2 =>
    jsIncludes l (("tic") ++ s1 ++ ("tac") ++ s2 ++ ("toe"))))) ||
  (match dropThrough ("create").data l.data with
   | none => false
   | some rest => match dropThrough ("tic").data rest with
     | none => false
     | some rest2 => listInfix ("toe").data rest2) ||
  (match dropThrough ("make").data l.data with
   | none => false
   | some rest => match dropThrough ("tic").data rest with
     | none => false
     | some rest2 => listInfix ("toe").data rest2)

/-- The snake generator object: it defines `patterns` but no `detect`
method, so under the detect-based registry its `detect` reads as
`undefined`. -/
def snakeGameGenerator : Generator :=
  { name := ("snakeGame"), detect := none }

/-- The tic-tac-toe generator object: `patterns` only, no `detect`. -/
def ticTacToeGameGenerator : Generator :=
  { name := ("ticTacToeGame"), detect := none }

/-- The todo generator object (src/generators/apps/todo.ts). -/
def todoAppGenerator : Generator :=
  { name := ("todoApp"), detect := some todoDetect }

/-- The catch-all generator (src/generators/generalgenerator.ts):
`detect: () => true`. -/
def generalGenerator : Generator :=
  { name := ("General Purpose Generator"), detect := some (fun _ => true) }

/-- The registration order produced by loading src/chat.ts: its import of
`./generators` runs src/generators/index.ts, whose own import of
`./games/snake` registers the snake generator (self-registration at module
scope), after which index.ts registers the snake generator again and then
the catch-all; only then do the later imports `./generators/games` and
`./generators/apps` of chat.ts register the tic-tac-toe and todo
generators.  (The games/apps index modules are not in the sources; they are
modelled from the spec as importing their sibling generator modules, which
self-register.  The notepad generator is never imported.) -/
def chatRegistry : List Generator :=
  [snakeGameGenerator, snakeGameGenerator, generalGenerator,
   ticTacToeGameGenerator, todoAppGenerator]

/-- The same registration order under the charitable reading in which the
`patterns` fields of the snake and tic-tac-toe generators serve as their
detect functions. -/
def chatRegistryPatternsAsDetect : List Generator :=
  [{ snakeGameGenerator with detect := some snakePatternsDetect },
   { snakeGameGenerator with detect := some snakePatternsDetect },
   generalGenerator,
   { ticTacToeGameGenerator with detect := some ticTacToePatternsDetect },
   todoAppGenerator]

/-- `findGenerator` from src/generators/index.ts:
`generators.find(generator => generator.detect(input))`.  Calling the
`detect` of a generator that has none (it reads as `undefined`) throws a
`TypeError`, modelled by the error case. -/
def findGenerator (gens : List Generator) (input : String) :
    Except String (Option Generator) :=
  match gens with
  | [] => Except.ok none
  | g :: rest =>
    match g.detect with
    | none => Except.error ("TypeError: generator.detect is not a function")
    | some d => if d input then Except.ok (some g) else findGenerator rest input

/-- The `type` and `path` fields of one action of a canned generator
response.  (The `content` fields of the todo generator's actions are large
literal web-app sources; no claim depends on them, so they are not carried
here.) -/
structure ActionShape where
  type : String
  path : String
deriving DecidableEq, Repr

/-- The `type` and `path` fields of the actions of the `AiResponse` returned
by the todo generator's `generate` (src/generators/apps/todo.ts). -/
def todoAppGeneratorActions : List ActionShape :=
  [⟨("createFolder"), ("todo_app")⟩,
   ⟨("createFile"), ("todo_app/index.html")⟩,
   ⟨("createFile"), ("todo_app/style.css")⟩,
   ⟨("createFile"), ("todo_app/app.js")⟩,
   ⟨("createFile"), ("todo_app/README.md")⟩]

/-! ### Remote model client (src/api.ts) -/

/-- The provider argument of `getApiConfig`/`getAiMessage`. -/
inductive ApiProvider
  | anthropic
  | openai
deriving DecidableEq, Repr

/-- The extension-configuration values `getApiConfig` reads
(`vscode.workspace.getConfiguration('myAiAssistant')`); `none` models an
unset setting. -/
structure VsConfig where
  anthropicApiKey : Option String
  openaiApiKey : Option String
  openaiModel : Option String
deriving DecidableEq, Repr

/-- The parts of the `ApiConfig` returned by `getApiConfig` that the claims
depend on.  (`requestFormat`, which builds the provider-specific request
body with the token budget, is not needed by any claim and is not carried.)
`providerUsed` records which provider's endpoint/model were selected. -/
structure ResolvedApiConfig where
  endpoint : String
  apiKey : String
  model : String
  providerUsed : String
deriving DecidableEq, Repr

def OPENAI_ENDPOINT : String := "https://api.openai.com/v1/chat/completions"

def ANTHROPIC_ENDPOINT : String := "https://api.anthropic.com/v1/messages"

def DEFAULT_MODEL : String := "gpt-4"

def SUPPORTED_OPENAI_MODELS : List String :=
  [("gpt-4"), ("gpt-4.5-preview"), ("gpt-4o-mini")]

/-- The message of the error thrown by `getApiConfig` when the OpenAI key
is unset. -/
def noOpenAiKeyMsg : String :=
  ("No OpenAI API key configured. ") ++
  ("Please set it in VS Code settings (myAiAssistant.openaiApiKey).")

/-- `getApiConfig` from src/api.ts.  If the provider is `anthropic` but the
Anthropic key is unset (falsy), the function logs a console warning and
reassigns `provider = 'openai'`; the Anthropic branch then builds the
Anthropic config, and the OpenAI branch throws (modelled by `Except.error`)
exactly when the OpenAI key is also falsy. -/
def getApiConfig (cfg : VsConfig) (provider0 : ApiProvider) :
    Except String ResolvedApiConfig :=
  let provider :=
    if provider0 == ApiProvider.anthropic && !(jsTruthy cfg.anthropicApiKey)
    then ApiProvider.openai else provider0
  match provider with
  | ApiProvider.anthropic =>
    Except.ok { endpoint := ANTHROPIC_ENDPOINT,
                apiKey := cfg.anthropicApiKey.getD (""),
                model := ("claude-3-7-sonnet-20250219"),
                providerUsed := ("anthropic") }
  | ApiProvider.openai =>
    let selectedModel := cfg.openaiModel.getD DEFAULT_MODEL
    let model := if SUPPORTED_OPENAI_MODELS.contains selectedModel
                 then selectedModel else DEFAULT_MODEL
    let apiKey := cfg.openaiApiKey.getD ("")
    if apiKey == "" then
      Except.error noOpenAiKeyMsg
    else
      Except.ok { endpoint := OPENAI_ENDPOINT, apiKey := apiKey,
                  model := model, providerUsed := ("openai") }

/-- The outcome of one HTTP POST to the provider, as `getAiMessage`'s
`catch` distinguishes outcomes: success with the assistant text, or a
failure carrying the optional HTTP status (`none` for transport-level
failures such as connection timeouts) and an error message. -/
inductive HttpOutcome
  | success (text : String)
  | failure (status : Option Nat) (message : String)
deriving DecidableEq, Repr

/-- Observable result of `getAiMessage`: the returned value (`none` models
the JavaScript `null`), how many HTTP attempts were made, and the warning
and error messages shown to the user. -/
structure AiMessageTrace where
  result : Option String
  attempts : Nat
  warnMessages : List String
  errorMessages : List String
deriving DecidableEq, Repr

/-- Name of a provider as interpolated into user-facing messages. -/
def providerName : ApiProvider → String
  | ApiProvider.anthropic => "anthropic"
  | ApiProvider.openai => "openai"

/-- `getAiMessage` from src/api.ts, parameterised by the configuration
lookup outcome and by the outcome of the HTTP attempt number `i` (the
function consults `outcome 0` only: the body contains a single
`axios.post`, with no retry loop).  A thrown `getApiConfig` error is caught
by the same `catch` as an HTTP failure and is reported with no status. -/
def getAiMessage (provider : ApiProvider) (cfg : VsConfig)
    (outcome : Nat → HttpOutcome) : AiMessageTrace :=
  match getApiConfig cfg provider with
  | Except.error e =>
    { result := none, attempts := 0, warnMessages := [],
      errorMessages :=
        [("AI request failed (") ++ providerName provider ++ ("): ") ++ e] }
  | Except.ok _ =>
    match outcome 0 with
    | HttpOutcome.success t =>
      { result := some t, attempts := 1, warnMessages := [],
        errorMessages := [] }
    | HttpOutcome.failure status msg =>
      let errorMessage := match status with
        | some s => ("Status ") ++ toString s ++ (": ") ++ msg
        | none => msg
      if status == some 429 then
        { result := none, attempts := 1,
          warnMessages := [("Rate limit exceeded (") ++
            providerName provider ++ ("). Please wait and try again.")],
          errorMessages := [] }
      else
        { result := none, attempts := 1, warnMessages := [],
          errorMessages := [("AI request failed (") ++
            providerName provider ++ ("): ") ++ errorMessage] }

/-! ### Response parser (`getAiResponse`, src/api.ts) -/

/-- JSON values, as `JSON.parse` produces them.  Numbers are irrelevant to
every claim and carried as integers. -/
inductive JVal
  | jnull
  | jbool (b : Bool)
  | jnum (n : Int)
  | jstr (s : String)
  | jarr (xs : List JVal)
  | jobj (fields : List (String × JVal))

/-- Object-field lookup keeping the last binding, as `JSON.parse` does for
duplicate keys. -/
def jlookup (fields : List (String × JVal)) (k : String) : Option JVal :=
  fields.foldl (fun acc f => if f.1 == k then some f.2 else acc) none

/-- JavaScript property access `v.k` on a parsed JSON value: throws a
`TypeError` on `null` (modelled by the error case), yields `undefined`
(here `none`) on primitives and arrays, and looks the field up on objects. -/
def jfield (v : JVal) (k : String) : Except Unit (Option JVal) :=
  match v with
  | JVal.jnull => Except.error ()
  | JVal.jobj fields => Except.ok (jlookup fields k)
  | _ => Except.ok none

/-- The structure check of `getAiResponse`:
`!Array.isArray(parsed.actions) || typeof parsed.message !== 'string'`
throws; otherwise the parsed value is returned as the `AiResponse`.  The
error case covers both the `TypeError` on `null` and the thrown
invalid-structure `Error`; both land in the same `catch`. -/
def checkShape (v : JVal) : Except Unit (List JVal × String) :=
  match jfield v ("actions") with
  | Except.error _ => Except.error ()
  | Except.ok a =>
    match jfield v ("message") with
    | Except.error _ => Except.error ()
    | Except.ok m =>
      match a, m with
      | some (JVal.jarr xs), some (JVal.jstr s) => Except.ok (xs, s)
      | _, _ => Except.error ()

/-- The prefix of `hay` strictly before the first occurrence of `needle`,
if `needle` occurs at all. -/
def takeUntil (needle : List Char) : List Char → Option (List Char)
  | [] => if needle.isPrefixOf ([] : List Char) then some [] else none
  | c :: rest =>
    if needle.isPrefixOf (c :: rest) then some []
    else match takeUntil needle rest with
      | none => none
      | some pre => some (c :: pre)

/-- The regex match for an embedded fenced JSON block in `getAiResponse`:
the lazy capture takes the text after the first fence opener
(backtick-backtick-backtick followed by `json` and a newline) up to the
first fence closer (newline followed by three backticks) after it. -/
def extractFencedJson (s : String) : Option String :=
  match dropThrough ("```json\n").data s.data with
  | none => none
  | some rest =>
    match takeUntil ("\n```").data rest with
    | none => none
    | some body => some (String.mk body)

/-- The result of `getAiResponse`, projected to the two recognised fields.
When the parse succeeds the whole parsed object is returned (cast, not
validated per action); the projection keeps the `actions` array elements as
raw JSON values, matching that cast. -/
structure ParsedAiResponse where
  actions : List JVal
  message : String

/-- The parsing part of `getAiResponse` from src/api.ts, parameterised by
the `JSON.parse` function (`Except.error` models a thrown `SyntaxError`):
try the raw text; if that throws or the shape check fails inside the `try`,
look for an embedded fenced JSON block and try that; if the block is
missing, unparsable or ill-shaped, fall back to
`{actions: [], message: aiMessage}`.  The function is total: every throwing
site is handled, so the original raw text can never escape as an
exception. -/
def getAiResponseParse (parse : String → Except String JVal)
    (aiMessage : String) : ParsedAiResponse :=
  let direct : Except Unit (List JVal × String) :=
    match parse aiMessage with
    | Except.error _ => Except.error ()
    | Except.ok v => checkShape v
  match direct with
  | Except.ok r => { actions := r.1, message := r.2 }
  | Except.error _ =>
    match extractFencedJson aiMessage with
    | some block =>
      match parse block with
      | Except.ok v =>
        match checkShape v with
        | Except.ok r => { actions := r.1, message := r.2 }
        | Except.error _ => { actions := [], message := aiMessage }
      | Except.error _ => { actions := [], message := aiMessage }
    | none => { actions := [], message := aiMessage }

/-- A raw text fails to produce a valid `{actions, message}` object along a
given parse outcome: either `JSON.parse` throws, or the parsed value is not
an object with an array `actions` and a string `message`. -/
def parseInvalid (r : Except String JVal) : Prop :=
  match r with
  | Except.error _ => True
  | Except.ok v => checkShape v = Except.error ()

/-! ### Debounce (`debounceAsync`, src/utils.ts) -/

/-- The closure state of `debounceAsync`: the pending `setTimeout` (as its
fire time, `none` when there is none scheduled or it has been cleared), the
`activePromise` (whether a shared promise exists that has not settled), and
how many times the wrapped function has been invoked. -/
structure DebounceState where
  timer : Option Nat
  active : Bool
  fnCalls : Nat
deriving DecidableEq, Repr

/-- One invocation of the debounced wrapper at time `t`
(src/utils.ts, `debounceAsync`): clear any pending timer; if no active
promise exists, create one and schedule the timer for `t + wait`; in either
case the caller receives the (single) active promise. -/
def debounceCall (wait t : Nat) (s : DebounceState) : DebounceState :=
  let s1 : DebounceState := { s with timer := none }
  if s1.active then s1
  else { s1 with active := true, timer := some (t + wait) }

/-- The scheduled timer fires: the wrapped function runs and its promise
settles, and the `finally` clears the timer and the active promise. -/
def debounceFire (s : DebounceState) : DebounceState :=
  { timer := none, active := false, fnCalls := s.fnCalls + 1 }

/-- Run the debounced wrapper over a time-ordered list of invocation times:
before each invocation, a timer whose fire time has passed fires; after the
last invocation, any still-pending timer fires.  The final state records
how many times the wrapped function ever ran. -/
def debounceRun (wait : Nat) : List Nat → DebounceState → DebounceState
  | [], s =>
    (match s.timer with
     | some _ => debounceFire s
     | none => s)
  | t :: ts, s =>
    let s1 := match s.timer with
      | some ft => if ft ≤ t then debounceFire s else s
      | none => s
    debounceRun wait ts (debounceCall wait t s1)

/-- The initial closure state: no timer, no active promise, no calls. -/
def debounceInit : DebounceState :=
  { timer := none, active := false, fnCalls := 0 }

/-! ### Conversation state (src/chat.ts) -/

/-- A persisted chat-history entry (`ChatHistoryItem`). -/
structure ChatHistoryItem where
  user : String
  ai : String
  timestamp : String
  files : List String
  errors : List String
deriving DecidableEq, Repr

/-- `Chat.addToHistory` (src/chat.ts), history part: push the new exchange,
then drop the oldest entry if the length now exceeds `maxHistory`
(`this.history.shift()`). -/
def addToHistory (maxHistory : Nat) (history : List ChatHistoryItem)
    (item : ChatHistoryItem) : List ChatHistoryItem :=
  let pushed := history ++ [item]
  if maxHistory < pushed.length then pushed.tail else pushed

/-- The `maxHistory` field of `Chat` (src/chat.ts). -/
def chatMaxHistory : Nat := 10

/-! ### Workspace mutator (`applyResponseChanges`, src/fileOperations.ts) -/

/-- The `range` field of an `editFile` action (src/types.ts `Range`); the
data model declares all four coordinates as non-negative integers. -/
structure JsRange where
  startLine : Nat
  startCharacter : Nat
  endLine : Nat
  endCharacter : Nat
deriving DecidableEq, Repr

/-- A `FileAction` (src/types.ts): the discriminant `type` is kept as a raw
string — the `switch` in `applyResponseChanges` has a `default` case for
unknown type strings — and every other field is optional. -/
structure FileAction where
  type : String
  path : Option String := none
  content : Option String := none
  range : Option JsRange := none
  newText : Option String := none
  text : Option String := none
deriving DecidableEq, Repr

/-- The `actions` field of an `AiResponse` as `applyResponseChanges`
receives it: the function first guards on `Array.isArray`, so a non-array
value (possible after the unvalidated cast in `getAiResponse`) is
representable. -/
inductive ActionsField
  | notArray
  | arr (actions : List FileAction)
deriving DecidableEq, Repr

/-- An `AiResponse` (src/types.ts). -/
structure AiResponse where
  actions : ActionsField
  message : String
deriving DecidableEq, Repr

/-- A filesystem or editor mutation performed by `applyResponseChanges` (or
`deletePath`), in execution order. -/
inductive MutEvent
  | createDir (path : String)
  | writeFile (path : String) (content : String)
  | replaceRange (path : String) (range : JsRange) (newText : String)
  | closeEditor (path : String)
  | trashDelete (path : String)
  | insertAtCursor (text : String)
deriving DecidableEq, Repr

/-- The host environment of one `applyResponseChanges` invocation: the
confirmation-prompt outcome (`Except.error` models the 30s race timeout
rejection, `Except.ok v` the prompt resolving with the clicked button or
`none` for a dismissal), whether a webview panel was passed, the workspace
root, the filesystem paths for which `fs.stat` succeeds, the openable
documents with their lines, whether `workspace.applyEdit` succeeds, whether
`fs.delete` succeeds (and the underlying message when it does not), the
visible editors, whether an active editor exists, the persisted
`chatHistory`, and the current ISO timestamp. -/
structure ApplyEnv where
  promptOutcome : Except Unit (Option String)
  hasPanel : Bool
  rootPath : String
  fsExisting : List String
  docs : List (String × List String)
  applyEditResult : Bool
  deleteResult : Bool
  deleteErrorMsg : String
  visibleEditors : List String
  hasActiveEditor : Bool
  history : List ChatHistoryItem
  now : String
deriving Repr

/-- The state threaded through the action loop of `applyResponseChanges`. -/
structure LoopState where
  fsExisting : List String
  docs : List (String × List String)
  visibleEditors : List String
  mutations : List MutEvent
  errors : List String
  allSucceeded : Bool
deriving DecidableEq, Repr

/-- Look a document up by its filesystem path. -/
def docsLookup (docs : List (String × List String)) (p : String) :
    Option (List String) :=
  match docs with
  | [] => none
  | d :: rest => if d.1 == p then some d.2 else docsLookup rest p

/-- Replace (or add) a document's lines after a file write. -/
def docsUpdate (docs : List (String × List String)) (p : String)
    (lines : List String) : List (String × List String) :=
  match docs with
  | [] => [(p, lines)]
  | d :: rest =>
    if d.1 == p then (p, lines) :: rest else d :: docsUpdate rest p lines

/-- Split file content into document lines at newlines. -/
def splitLines (s : String) : List String :=
  (splitOnChar '\n' [] s.data).map String.mk

/-- `vscode.TextDocument.lineAt(line)`: returns the line's text for a line
number below `lineCount` and throws `Illegal value for line` otherwise. -/
def lineAt (lines : List String) (i : Nat) : Except String String :=
  if h : i < lines.length then Except.ok (lines.get ⟨i, h⟩)
  else Except.error ("Illegal value for line")

/-- `deletePath` from src/fileOperations.ts: sanitize the (already joined)
path again, close every visible editor on it, then delete to trash;
a failing delete is rethrown as `Deletion failed: …`. -/
def deletePath (env : ApplyEnv) (st : LoopState) (filePath : String) :
    Except String LoopState :=
  let sp := sanitizeFilePath filePath
  let closes := (st.visibleEditors.filter (fun e => e == sp)).map
    (fun e => MutEvent.closeEditor e)
  let st1 : LoopState :=
    { st with mutations := st.mutations ++ closes,
              visibleEditors := st.visibleEditors.filter (fun e => !(e == sp)) }
  if env.deleteResult then
    Except.ok { st1 with
      mutations := st1.mutations ++ [MutEvent.trashDelete sp],
      fsExisting := st1.fsExisting.filter (fun p => !(p == sp)) }
  else
    Except.error (("Deletion failed: ") ++ env.deleteErrorMsg)

/-- The body of the `try` around one action of `applyResponseChanges`:
the type-specific effect, with every `throw` modelled by `Except.error`. -/
def applyActionCore (env : ApplyEnv) (st : LoopState) (a : FileAction)
    (hasPath : Bool) (fullPath : String) : Except String LoopState :=
  if a.type == ("createFolder") then
    if !hasPath then Except.error ("Path required for createFolder.")
    else if st.fsExisting.contains fullPath then Except.ok st
    else Except.ok { st with
      mutations := st.mutations ++ [MutEvent.createDir fullPath],
      fsExisting := st.fsExisting ++ [fullPath] }
  else if a.type == ("createFile") then
    if !hasPath then Except.error ("Path required for createFile.")
    else
      let content := a.content.getD ("")
      Except.ok { st with
        mutations := st.mutations ++ [MutEvent.writeFile fullPath content],
        fsExisting := if st.fsExisting.contains fullPath then st.fsExisting
                      else st.fsExisting ++ [fullPath],
        docs := docsUpdate st.docs fullPath (splitLines content) }
  else if a.type == ("editFile") then
    match a.range with
    | none => Except.error ("Path, range, and newText required for editFile.")
    | some r =>
      if !hasPath || !(jsTruthy a.newText) then
        Except.error ("Path, range, and newText required for editFile.")
      else
        match docsLookup st.docs fullPath with
        | none => Except.error (("cannot open ") ++ fullPath)
        | some lines =>
          let lineCount := lines.length
          let sL := min r.startLine (lineCount - 1)
          match lineAt lines r.startLine with
          | Except.error e => Except.error e
          | Except.ok sText =>
            let sC := min r.startCharacter sText.length
            let eL := min r.endLine (lineCount - 1)
            match lineAt lines r.endLine with
            | Except.error e => Except.error e
            | Except.ok eText =>
              let eC := min r.endCharacter eText.length
              if env.applyEditResult then
                Except.ok { st with mutations := st.mutations ++
                  [MutEvent.replaceRange fullPath ⟨sL, sC, eL, eC⟩
                    (a.newText.getD (""))] }
              else Except.error ("Edit application failed.")
  else if a.type == ("deleteFile") then
    if fullPath == "" then Except.error ("Path required for deleteFile.")
    else deletePath env st fullPath
  else if a.type == ("deleteFolder") then
    if fullPath == "" then Except.error ("Path required for deleteFolder.")
    else deletePath env st fullPath
  else if a.type == ("insertText") then
    if !env.hasActiveEditor then Except.error ("No active editor for insertText.")
    else Except.ok { st with
      mutations := st.mutations ++ [MutEvent.insertAtCursor (a.text.getD (""))] }
  else
    Except.error (("Unknown action type: ") ++ a.type)

/-- One iteration of the action loop: resolve the path (sanitize, join to
the workspace root) when the action carries a truthy `path`, run the
type-specific effect, and on a caught error post a per-action diagnostic
and mark the batch as partially failed. -/
def applyAction (env : ApplyEnv) (st : LoopState) (a : FileAction) :
    LoopState :=
  let hasPath := jsTruthy a.path
  let sanitizedPath := if hasPath then sanitizeFilePath (a.path.getD ("")) else ("")
  let fullPath := if hasPath then pathJoin env.rootPath sanitizedPath else ("")
  match applyActionCore env st a hasPath fullPath with
  | Except.ok st1 => st1
  | Except.error msg =>
    { st with
      errors := st.errors ++ [("Error on ") ++ a.type ++ (": ") ++ msg],
      allSucceeded := false }

/-- The observable outcome of one `applyResponseChanges` call: whether the
confirmation prompt was shown, the mutations performed, the messages posted
to the panel (in order), the final notification(s), warning toasts, and the
history written to `globalState.update('chatHistory', …)` (when it was
written at all). -/
structure ApplyResult where
  promptShown : Bool
  mutations : List MutEvent
  panelMessages : List String
  infoMessages : List String
  warnMessages : List String
  savedHistory : Option (List ChatHistoryItem)
deriving DecidableEq, Repr

/-- `applyResponseChanges` from src/fileOperations.ts.  Control flow:
(1) a non-array `actions` posts the message (when truthy and a panel
exists) and returns; (2) confirmation is required unless every action is an
`insertText`; a prompt timeout warns and proceeds, any answer other than
`Yes` posts `Changes discarded.` and returns with no effects; (3) the
action loop runs with per-action error isolation; (4) the reply (the
response message, or `Actions completed.` when falsy) is posted, a
fully-successful batch with a panel appends a `ChatHistoryItem` (empty
`user`, the reply as `ai`, the truthy raw action paths as `files`) to the
persisted history **without trimming it**, and an aggregate
success/failure notification is shown. -/
def applyResponseChanges (env : ApplyEnv) (r : AiResponse) : ApplyResult :=
  match r.actions with
  | ActionsField.notArray =>
    { promptShown := false, mutations := [],
      panelMessages :=
        if !(r.message == "") && env.hasPanel then [r.message] else [],
      infoMessages := [], warnMessages := [], savedHistory := none }
  | ActionsField.arr actions =>
    let requiresConfirmation :=
      !(actions.all (fun a => a.type == ("insertText")))
    let confirmWarn : Option String × List String :=
      if requiresConfirmation then
        match env.promptOutcome with
        | Except.ok v => (v, [])
        | Except.error _ => (some ("Yes"), [("Prompt timed out. Applying changes.")])
      else (some ("Yes"), [])
    if !(confirmWarn.1 == some ("Yes")) then
      { promptShown := true, mutations := [],
        panelMessages := if env.hasPanel then [("Changes discarded.")] else [],
        infoMessages := [], warnMessages := confirmWarn.2,
        savedHistory := none }
    else
      let st0 : LoopState :=
        { fsExisting := env.fsExisting, docs := env.docs,
          visibleEditors := env.visibleEditors, mutations := [],
          errors := [], allSucceeded := true }
      let looped := actions.foldl (applyAction env) st0
      let reply := if r.message == "" then ("Actions completed.") else r.message
      let savedHistory :=
        if env.hasPanel && looped.allSucceeded then
          some (env.history ++
            [{ user := (""), ai := reply, timestamp := env.now,
               files := (actions.filterMap (fun a => a.path)).filter
                 (fun p => !(p == "")),
               errors := [] }])
        else none
      { promptShown := requiresConfirmation,
        mutations := looped.mutations,
        panelMessages :=
          if env.hasPanel then looped.errors ++ [reply] else [],
        infoMessages :=
          [if looped.allSucceeded then ("Changes applied successfully!")
           else ("Some changes failed; check logs.")],
        warnMessages := confirmWarn.2,
        savedHistory := savedHistory }

/-! ### Concrete data used by witnesses and counterexamples -/

/-- A character list with no two adjacent slashes. -/
def noDoubleSlash : List Char → Bool
  | [] => true
  | [_] => true
  | c1 :: c2 :: rest =>
    if c1 == '/' && c2 == '/' then false else noDoubleSlash (c2 :: rest)

/-- A sample host environment for `applyResponseChanges`: one workspace at
`/w` holding a one-line document `a.txt`, a panel, a user that answers
`Yes`, and hosts on which edits and deletions succeed. -/
def sampleEnv : ApplyEnv :=
  { promptOutcome := Except.ok (some ("Yes")), hasPanel := true,
    rootPath := ("/w"), fsExisting := [(("/w/a.txt"))],
    docs := [(("/w/a.txt"), [("hello")])],
    applyEditResult := true, deleteResult := true, deleteErrorMsg := ("boom"),
    visibleEditors := [], hasActiveEditor := false,
    history := [], now := ("2026-01-01T00:00:00.000Z") }

/-- An `editFile` action whose range lies past the last line of the
one-line sample document. -/
def editBeyondDoc : FileAction :=
  { type := ("editFile"), path := some ("a.txt"),
    range := some ⟨5, 0, 5, 0⟩, newText := some ("x") }

/-- An `editFile` action on line 0 with character positions past the end of
the line. -/
def editPastLineEnd : FileAction :=
  { type := ("editFile"), path := some ("a.txt"),
    range := some ⟨0, 99, 0, 99⟩, newText := some ("x") }

/-- A placeholder persisted chat-history entry. -/
def sampleHistoryItem : ChatHistoryItem :=
  ⟨("u"), ("a"), ("t"), [], []⟩

/-- A `JSON.parse` that always throws, as it does on the truncated action
JSON used to exercise the parser fallback. -/
def failingParse : String → Except String JVal :=
  fun _ => Except.error ("SyntaxError: Unexpected end of JSON input")

/-- The truncated raw model text from the spec's parser test (the opening
braces written as hex escapes). -/
def truncatedRaw : String := "\x7b\"actions\":[\x7b\"type\":\"createFile\""

/-! ## Theorems -/

/-- Every character that `collapseSlashes` keeps comes from its input. -/
theorem mem_collapseSlashes {c : Char} :
    ∀ l : List Char, c ∈ collapseSlashes l → c ∈ l := by
  intro l
  induction l with
  | nil => simp [collapseSlashes]
  | cons c1 tl ih =>
    cases tl with
    | nil => simp [collapseSlashes]
    | cons c2 rest =>
      by_cases h : (c1 == '/' && c2 == '/') = true
      · intro hm
        rw [collapseSlashes, if_pos h] at hm
        exact List.mem_cons_of_mem c1 (ih hm)
      · intro hm
        rw [collapseSlashes, if_neg h] at hm
        rcases List.mem_cons.mp hm with h1 | h2
        · exact List.mem_cons.mpr (Or.inl h1)
        · exact List.mem_cons_of_mem c1 (ih h2)

/-- `collapseSlashes` keeps the head of a non-empty list. -/
theorem collapseSlashes_head :
    ∀ (c : Char) (l : List Char), ∃ t, collapseSlashes (c :: l) = c :: t := by
  intro c l
  induction l generalizing c with
  | nil => exact ⟨[], rfl⟩
  | cons c2 rest ih =>
    by_cases h : (c == '/' && c2 == '/') = true
    · have hc : c = '/' := by
        have := (Bool.and_eq_true _ _).mp h
        exact eq_of_beq this.1
      have hc2 : c2 = '/' := by
        have := (Bool.and_eq_true _ _).mp h
        exact eq_of_beq this.2
      rcases ih c2 with ⟨t, ht⟩
      refine ⟨t, ?_⟩
      rw [collapseSlashes, if_pos h, ht, hc, hc2]
    · rcases ih c2 with ⟨t, ht⟩
      exact ⟨collapseSlashes (c2 :: rest), by rw [collapseSlashes, if_neg h]⟩

/-- `collapseSlashes` leaves no two adjacent slashes. -/
theorem noDoubleSlash_collapseSlashes :
    ∀ l : List Char, noDoubleSlash (collapseSlashes l) = true := by
  intro l
  induction l with
  | nil => rfl
  | cons c1 tl ih =>
    cases tl with
    | nil => rfl
    | cons c2 rest =>
      by_cases h : (c1 == '/' && c2 == '/') = true
      · rw [collapseSlashes, if_pos h]; exact ih
      · rw [collapseSlashes, if_neg h]
        rcases collapseSlashes_head c2 rest with ⟨t, ht⟩
        rw [ht]
        rw [ht] at ih
        have hcc : (c1 == '/' && c2 == '/') = false := by
          exact Bool.not_eq_true _ ▸ (by simpa using h)
        rw [noDoubleSlash, if_neg (by simp [hcc])]
        exact ih

/-- `sanitizeChar` always lands in the allowed class. -/
theorem allowedChar_sanitizeChar (c : Char) :
    allowedChar (sanitizeChar c) = true := by
  by_cases h : allowedChar c = true
  · rw [sanitizeChar, if_pos h]; exact h
  · rw [sanitizeChar, if_neg h]; decide

/-- C1, counterexample.  The claim says that for every input string the
sanitized path joined to the workspace root resolves inside the root.  The
dot and the slash are in the allowed character class of `sanitizeFilePath`,
so the traversal path `../secret` passes through it unchanged, and joining
it to the workspace root resolves to a location outside the root. -/
theorem c1_traversal_escapes_root :
    sanitizeFilePath ("../secret") = ("../secret") ∧
    pathJoin ("/workspace") (sanitizeFilePath ("../secret")) = ("/secret") ∧
    insideRoot ("/workspace")
      (pathJoin ("/workspace") (sanitizeFilePath ("../secret"))) = false := by
  refine ⟨by decide, by decide, by decide⟩

/-- C1, amended.  `sanitizeFilePath` does neutralize illegal filesystem
characters — every character of its output is an ASCII letter, digit,
underscore, dot, slash or dash, and the output has no two adjacent
slashes — but it preserves dots and slashes, so `..` traversal segments
survive and the joined path need not stay inside the workspace root. -/
theorem c1_sanitize_neutralizes_illegal_chars (s : String) :
    (∀ c ∈ (sanitizeFilePath s).data, allowedChar c = true) ∧
    noDoubleSlash ((sanitizeFilePath s).data) = true := by
  constructor
  · intro c hc
    have hmem : c ∈ s.data.map sanitizeChar := mem_collapseSlashes _ hc
    rcases List.mem_map.mp hmem with ⟨d, _, hd⟩
    rw [← hd]
    exact allowedChar_sanitizeChar d
  · exact noDoubleSlash_collapseSlashes _

/-- C1, witness for the amended theorem at a concrete input containing an
illegal character. -/
theorem c1_sanitize_witness :
    allowedChar '_' = true ∧ noDoubleSlash ((sanitizeFilePath ("a<b")).data) = true := by
  refine ⟨?_, (c1_sanitize_neutralizes_illegal_chars ("a<b")).2⟩
  exact (c1_sanitize_neutralizes_illegal_chars ("a<b")).1 '_' (by decide)

/-- C2.  Evaluating the generator lookup at the request `create a todo app`
over the registration order the module imports produce: the lookup throws —
the first registered generator (snake) has no `detect` method — so the todo
generator is never selected; even under the charitable reading in which
the `patterns` fields of the game generators serve as their detect
functions, the catch-all general generator is registered before the todo
generator and wins.  The todo generator itself would both detect the
request and produce exactly one `createFolder` and four `createFile`
actions under the `todo_app/` prefix, as the claim describes — it is just
unreachable. -/
theorem c2_todo_generator_is_shadowed :
    findGenerator chatRegistry ("create a todo app") =
      Except.error ("TypeError: generator.detect is not a function") ∧
    (findGenerator chatRegistryPatternsAsDetect ("create a todo app")).map
      (Option.map Generator.name) =
      Except.ok (some ("General Purpose Generator")) ∧
    todoDetect ("create a todo app") = true ∧
    (todoAppGeneratorActions.filter
      (fun a => a.type == ("createFolder"))).length = 1 ∧
    3 ≤ (todoAppGeneratorActions.filter (fun a =>
      a.type == ("createFile") &&
        ("todo_app/").data.isPrefixOf a.path.data)).length := by
  refine ⟨rfl, rfl, by decide, by decide, by decide⟩

/-- C3, counterexample.  The claim says a connection-timeout-class failure
is retried with linear backoff before the error is surfaced.  The body of
`getAiMessage` contains a single `axios.post` and no retry loop: on a
timeout failure it makes exactly one attempt, reports the error and returns
null immediately. -/
theorem c3_timeout_not_retried :
    getAiMessage ApiProvider.openai ⟨none, some ("sk-test"), none⟩
      (fun _ => HttpOutcome.failure none ("timeout of 10000ms exceeded")) =
      ⟨none, 1, [],
        [("AI request failed (openai): timeout of 10000ms exceeded")]⟩ ∧
    (getAiMessage ApiProvider.openai ⟨none, some ("sk-test"), none⟩
      (fun _ => HttpOutcome.failure none ("timeout of 10000ms exceeded"))).attempts
      < 2 := by
  exact ⟨by decide, by decide⟩

/-- C3, amended.  `getAiMessage` performs at most one HTTP attempt — none
when the configuration lookup throws, exactly one otherwise — and on a
connection-timeout-class failure (no HTTP status, hence not 429) it
surfaces the error message at once and returns null, with no retries and no
backoff. -/
theorem c3_single_attempt (provider : ApiProvider) (cfg : VsConfig)
    (outcome : Nat → HttpOutcome) :
    (getAiMessage provider cfg outcome).attempts ≤ 1 ∧
    (∀ m : String, (getApiConfig cfg provider).isOk = true →
      outcome 0 = HttpOutcome.failure none m →
      (getAiMessage provider cfg outcome).result = none ∧
      (getAiMessage provider cfg outcome).errorMessages =
        [("AI request failed (") ++ providerName provider ++ ("): ") ++ m]) := by
  constructor
  · unfold getAiMessage
    cases h : getApiConfig cfg provider with
    | error e => simp
    | ok v =>
      cases outcome 0 with
      | success t => simp
      | failure st msg =>
        by_cases h429 : (st == some 429) = true
        · simp [h429]
        · simp [h429]
  · intro m hok hfail
    unfold getAiMessage
    cases h : getApiConfig cfg provider with
    | error e => rw [h] at hok; simp [Except.isOk, Except.toBool] at hok
    | ok v => rw [hfail]; simp

/-- C3, witness for the amended theorem: a concrete OpenAI configuration
and a concrete timeout failure. -/
theorem c3_single_attempt_witness :
    (getAiMessage ApiProvider.openai ⟨none, some ("sk-w"), none⟩
      (fun _ => HttpOutcome.failure none ("connection reset"))).result = none ∧
    (getAiMessage ApiProvider.openai ⟨none, some ("sk-w"), none⟩
      (fun _ => HttpOutcome.failure none ("connection reset"))).attempts ≤ 1 := by
  refine ⟨?_, ?_⟩
  · exact ((c3_single_attempt ApiProvider.openai ⟨none, some ("sk-w"), none⟩
      (fun _ => HttpOutcome.failure none ("connection reset"))).2
      ("connection reset") (by decide) rfl).1
  · exact (c3_single_attempt ApiProvider.openai ⟨none, some ("sk-w"), none⟩
      (fun _ => HttpOutcome.failure none ("connection reset"))).1

/-- C8.  One submission leads to exactly one invocation of the wrapped
function; but two submissions inside the debounce window (here at 0 ms and
100 ms with the 500 ms window of `debouncedSendMessage`) lead to **zero**
invocations, with the shared promise left permanently pending: the second
call's `clearTimeout` cancels the scheduled run and nothing reschedules it,
so no remote-model call ever happens — not the exactly-one call the claim
describes. -/
theorem c8_debounce_drops_both_calls :
    debounceRun 500 [0] debounceInit = ⟨none, false, 1⟩ ∧
    debounceRun 500 [0, 100] debounceInit = ⟨none, true, 0⟩ := by
  exact ⟨by decide, by decide⟩

/-- C9, counterexample.  The claim says a request with provider
`anthropic` and no Anthropic key is a hard stop and is never redirected to
another provider.  With no Anthropic key but an OpenAI key configured,
`getApiConfig` silently falls back to the OpenAI endpoint and model and
returns successfully. -/
theorem c9_anthropic_fallback_counterexample :
    getApiConfig ⟨none, some ("sk-test"), none⟩ ApiProvider.anthropic =
      Except.ok ⟨OPENAI_ENDPOINT, ("sk-test"), ("gpt-4"), ("openai")⟩ ∧
    !(OPENAI_ENDPOINT == ANTHROPIC_ENDPOINT) = true := by
  exact ⟨rfl, by decide⟩

/-- C9, amended.  A missing key is a hard stop only for the OpenAI
provider: with provider `anthropic` and no Anthropic key, `getApiConfig`
silently (console warning only) falls back to OpenAI, erroring only when
the OpenAI key is also unset. -/
theorem c9_key_absence_behavior (cfg : VsConfig) :
    (jsTruthy cfg.anthropicApiKey = false → jsTruthy cfg.openaiApiKey = false →
      getApiConfig cfg ApiProvider.anthropic = Except.error noOpenAiKeyMsg) ∧
    (jsTruthy cfg.anthropicApiKey = false → jsTruthy cfg.openaiApiKey = true →
      ∃ r, getApiConfig cfg ApiProvider.anthropic = Except.ok r ∧
        r.providerUsed = ("openai") ∧ r.endpoint = OPENAI_ENDPOINT) ∧
    (jsTruthy cfg.openaiApiKey = false →
      getApiConfig cfg ApiProvider.openai = Except.error noOpenAiKeyMsg) := by
  have hkey : jsTruthy cfg.openaiApiKey = false →
      (cfg.openaiApiKey.getD ("") == "") = true := by
    intro h
    cases hk : cfg.openaiApiKey with
    | none => decide
    | some s =>
      rw [hk] at h
      simp [jsTruthy] at h
      simp [hk, h]
  have hkey2 : jsTruthy cfg.openaiApiKey = true →
      (cfg.openaiApiKey.getD ("") == "") = false := by
    intro h
    cases hk : cfg.openaiApiKey with
    | none => rw [hk] at h; simp [jsTruthy] at h
    | some s =>
      rw [hk] at h
      simp [jsTruthy] at h
      simp [hk, h]
  refine ⟨?_, ?_, ?_⟩
  · intro ha ho
    unfold getApiConfig
    simp only [ha]
    simp [hkey ho]
  · intro ha ho
    refine ⟨⟨OPENAI_ENDPOINT, cfg.openaiApiKey.getD (""),
      (if SUPPORTED_OPENAI_MODELS.contains (cfg.openaiModel.getD DEFAULT_MODEL)
       then cfg.openaiModel.getD DEFAULT_MODEL else DEFAULT_MODEL),
      ("openai")⟩, ?_, rfl, rfl⟩
    unfold getApiConfig
    simp only [ha]
    simp [hkey2 ho]
  · intro ho
    unfold getApiConfig
    simp [hkey ho]

/-- C9, witness for the amended theorem: both keys unset is a hard stop for
provider `anthropic`; an OpenAI key alone routes `anthropic` to OpenAI. -/
theorem c9_key_absence_witness :
    getApiConfig ⟨none, none, none⟩ ApiProvider.anthropic =
      Except.error noOpenAiKeyMsg ∧
    (∃ r, getApiConfig ⟨none, some ("sk-w"), none⟩ ApiProvider.anthropic =
      Except.ok r ∧ r.providerUsed = ("openai") ∧ r.endpoint = OPENAI_ENDPOINT) := by
  refine ⟨(c9_key_absence_behavior ⟨none, none, none⟩).1 (by decide) (by decide), ?_⟩
  exact (c9_key_absence_behavior ⟨none, some ("sk-w"), none⟩).2.1 (by decide) (by decide)

/-- C4.  For every raw model text and every `JSON.parse` behavior on which
neither the raw text nor an embedded fenced JSON block (if one is present)
yields a valid object with an array `actions` and a string `message`,
`getAiResponse`'s parsing returns `{actions: [], message: rawText}`.  The
embedding is a total function — every throwing site (a `JSON.parse`
`SyntaxError`, the property access on `null`, the invalid-structure
`Error`) is handled by the surrounding `try`/`catch` — so no exception can
escape. -/
theorem c4_parse_falls_back_to_raw_text (parse : String → Except String JVal)
    (raw : String)
    (hdirect : parseInvalid (parse raw))
    (hembedded : ∀ b, extractFencedJson raw = some b → parseInvalid (parse b)) :
    getAiResponseParse parse raw = ⟨[], raw⟩ := by
  have hfence : ∀ u : Unit,
      (match extractFencedJson raw with
        | some block =>
          match parse block with
          | Except.ok v =>
            match checkShape v with
            | Except.ok r => (⟨r.1, r.2⟩ : ParsedAiResponse)
            | Except.error _ => ⟨[], raw⟩
          | Except.error _ => ⟨[], raw⟩
        | none => ⟨[], raw⟩) = (⟨[], raw⟩ : ParsedAiResponse) := by
    intro _
    cases he : extractFencedJson raw with
    | none => rfl
    | some b =>
      have hb := hembedded b he
      cases hp : parse b with
      | error e => simp only [hp]
      | ok v =>
        rw [hp] at hb
        unfold parseInvalid at hb
        simp only [hp, hb]
  unfold getAiResponseParse
  cases hp0 : parse raw with
  | error e => exact hfence ()
  | ok v =>
    rw [hp0] at hdirect
    simp only [parseInvalid] at hdirect
    simp only [hdirect]
    exact hfence ()

/-- C4, witness: the truncated action JSON from the spec's parser test,
with a `JSON.parse` that throws on it; the text has no fenced block, and
the parser returns it unchanged as the message with an empty action
list. -/
theorem c4_parse_fallback_witness :
    getAiResponseParse failingParse truncatedRaw = ⟨[], truncatedRaw⟩ := by
  refine c4_parse_falls_back_to_raw_text failingParse truncatedRaw trivial ?_
  intro b hb
  rw [(by decide : extractFencedJson truncatedRaw = none)] at hb
  cases hb

/-- C5.  For every environment and every action batch containing at least
one non-`insertText` action, if the prompt resolves with `No`,
`applyResponseChanges` performs no filesystem or editor mutation, posts
exactly `Changes discarded.` to the panel, writes no history, and shows no
completion notification. -/
theorem c5_decline_discards_everything (env : ApplyEnv)
    (actions : List FileAction) (msg : String)
    (hmixed : actions.all (fun a => a.type == ("insertText")) = false)
    (hno : env.promptOutcome = Except.ok (some ("No")))
    (hpanel : env.hasPanel = true) :
    applyResponseChanges env ⟨ActionsField.arr actions, msg⟩ =
      ⟨true, [], [("Changes discarded.")], [], [], none⟩ := by
  unfold applyResponseChanges
  simp only [hmixed, hno, hpanel]
  rfl

/-- C5, witness: a one-action `createFolder` batch declined by the user. -/
theorem c5_decline_witness :
    applyResponseChanges
      { sampleEnv with promptOutcome := Except.ok (some ("No")) }
      ⟨ActionsField.arr [{ type := ("createFolder"), path := some ("x") }],
        ("msg")⟩ =
      ⟨true, [], [("Changes discarded.")], [], [], none⟩ := by
  exact c5_decline_discards_everything
    { sampleEnv with promptOutcome := Except.ok (some ("No")) }
    [{ type := ("createFolder"), path := some ("x") }] ("msg")
    (by decide) rfl rfl

/-- C6.  An `editFile` action whose `startLine`/`endLine` lie at or past
the document's line count is **not** clamped and applied: the clamped line
number computed with `Math.min` is discarded when `doc.lineAt` is indexed
with the raw line number, which throws `Illegal value for line`, so the
action is caught and recorded as failed (error posted, batch reported as
partially failed, no mutation).  Character positions beyond the end of an
existing line, by contrast, are clamped and the edit applies. -/
theorem c6_out_of_range_edit_fails_action :
    applyResponseChanges sampleEnv
      ⟨ActionsField.arr [editBeyondDoc], ("edit")⟩ =
      ⟨true, [], [("Error on editFile: Illegal value for line"), ("edit")],
        [("Some changes failed; check logs.")], [], none⟩ ∧
    applyResponseChanges sampleEnv
      ⟨ActionsField.arr [editPastLineEnd], ("edit")⟩ =
      ⟨true, [MutEvent.replaceRange ("/w/a.txt") ⟨0, 5, 0, 5⟩ ("x")],
        [("edit")], [("Changes applied successfully!")], [],
        some [⟨(""), ("edit"), ("2026-01-01T00:00:00.000Z"),
          [("a.txt")], []⟩]⟩ := by
  exact ⟨by decide, by decide⟩

/-- C7, counterexample.  The claim says every writer of the persisted
`chatHistory` preserves the 10-entry bound.  The history writer at the end
of `applyResponseChanges` pushes a new entry without trimming: starting
from a history already at the cap, it persists 11 entries. -/
theorem c7_apply_writer_exceeds_cap :
    ((applyResponseChanges
      { sampleEnv with history := List.replicate 10 sampleHistoryItem }
      ⟨ActionsField.arr [], ("done")⟩).savedHistory.map List.length) =
      some 11 ∧ chatMaxHistory < 11 := by
  exact ⟨by decide, by decide⟩

/-- C7, amended.  `Chat.addToHistory` does preserve the bound: from any
history within the 10-entry cap it stays within the cap, and a history
exactly at the cap evicts its oldest entry (FIFO).  The other writer of
`chatHistory` — the success path of `applyResponseChanges` — appends
without trimming and can exceed the cap. -/
theorem c7_addToHistory_preserves_cap (history : List ChatHistoryItem)
    (item : ChatHistoryItem)
    (hlen : history.length ≤ chatMaxHistory) :
    (addToHistory chatMaxHistory history item).length ≤ chatMaxHistory ∧
    (history.length = chatMaxHistory →
      addToHistory chatMaxHistory history item = history.tail ++ [item]) := by
  constructor
  · unfold addToHistory
    by_cases h : chatMaxHistory < (history ++ [item]).length
    · rw [if_pos h]
      simp only [List.length_tail, List.length_append, List.length_singleton]
      omega
    · rw [if_neg h]
      omega
  · intro hfull
    unfold addToHistory
    have h : chatMaxHistory < (history ++ [item]).length := by
      simp only [List.length_append, List.length_singleton]
      omega
    rw [if_pos h]
    cases history with
    | nil => simp [chatMaxHistory] at hfull
    | cons a t => rfl

/-- C7, witness for the amended theorem at a history exactly at the cap. -/
theorem c7_addToHistory_witness :
    (addToHistory chatMaxHistory (List.replicate 10 sampleHistoryItem)
      sampleHistoryItem).length ≤ chatMaxHistory := by
  exact (c7_addToHistory_preserves_cap (List.replicate 10 sampleHistoryItem)
    sampleHistoryItem (by decide)).1

/-- C10.  For every response whose actions list is empty, every action in
it is trivially an `insertText`, so no confirmation prompt is shown; the
loop performs no mutation; the (non-empty) response message is posted to
the panel; and the success notification is emitted. -/
theorem c10_empty_actions_no_prompt (env : ApplyEnv) (msg : String)
    (hpanel : env.hasPanel = true)
    (hmsg : (msg == "") = false) :
    applyResponseChanges env ⟨ActionsField.arr [], msg⟩ =
      ⟨false, [], [msg], [("Changes applied successfully!")], [],
        some (env.history ++ [⟨(""), msg, env.now, [], []⟩])⟩ := by
  unfold applyResponseChanges
  simp only [hmsg, hpanel]
  rfl

/-- C10, witness at the sample environment. -/
theorem c10_empty_actions_witness :
    applyResponseChanges sampleEnv ⟨ActionsField.arr [], ("done")⟩ =
      ⟨false, [], [("done")], [("Changes applied successfully!")], [],
        some [⟨(""), ("done"), ("2026-01-01T00:00:00.000Z"), [], []⟩]⟩ := by
  exact c10_empty_actions_no_prompt sampleEnv ("done") rfl (by decide)

end AIAssistant
